import Mathlib

/-!
Verification of `protect-python-app` (FlameWolf/Temp).

The repository encrypts a compiled native module with the `cryptography`
library's Fernet scheme (`encrypt_compiled.py`), and at launch decrypts,
stages and executes it (`runtime_loader.py`, driven by `app_launcher.py`).

The Fernet primitive itself is an external library, not part of this
repository, so it is modelled from the specification (spec sections 3, 4.1):
an authenticated-encryption token `header + nonce/timestamp + ciphertext +
authentication tag`, whose decryption verifies the tag before returning any
plaintext, with a fixed raw key length of 32 bytes checked at construction.
The body transformation is an explicit self-inverse keystream XOR, and the
MAC is an idealized (injective, pair-binding) tag as the spec's integrity
invariant demands.  The repository's own functions (`encrypt_file`,
`_decrypt_file`, `load_and_run`, `CythonRuntimeLoader.__init__`,
`app_launcher.main`) are translated from the source: file input/output is
made explicit (the bytes read, the trace of file operations performed, a
loader state recording the staging file and `sys.modules`), and the
nondeterministic outcomes of the OS steps (staging write, spec lookup,
module execution, best-effort cleanup unlink) are explicit boolean inputs.
-/

/-- Modelled from the spec: duplicate-encoding used by the idealized MAC.
Every byte of the authenticated material appears twice, so the set of valid
tags has pairwise Hamming distance at least two, realizing the spec's
invariant that any single-byte corruption of the tag is detected. -/
def dup : List Nat → List Nat
  | [] => []
  | a :: t => a :: a :: dup t

/-- Modelled from the spec: the keystream of the symmetric cipher, `n` bytes
derived from the raw key and the per-encryption nonce (IV). -/
def keystream (key iv : List Nat) (n : Nat) : List Nat :=
  (List.range n).map (fun i => (key.getD (i % 32) 0) ^^^ ((iv.getD (i % 16) 0) ^^^ (i % 256)))

/-- Modelled from the spec: the body transformation of the cipher — XOR of
the payload with the key/nonce keystream.  It is its own inverse, which is
what the round-trip property of the spec uses. -/
def encBody (key iv p : List Nat) : List Nat :=
  List.zipWith (fun a b => a ^^^ b) (keystream key iv p.length) p

/-- Modelled from the spec: the authentication tag over the token body
(header, timestamp, nonce, ciphertext), keyed by the raw key.  Idealized as
a perfectly binding MAC: the tag determines the key/body pair. -/
def macTag (key body : List Nat) : List Nat := dup (key ++ body)

/-- Modelled from the spec: an encrypted artifact — `header + nonce/timestamp
+ ciphertext + authentication tag` (spec section 3, EncryptedArtifact). -/
structure FernetToken where
  version : Nat
  timestamp : Nat
  iv : List Nat
  ciphertext : List Nat
  tag : List Nat
deriving DecidableEq

/-- Modelled from the spec: error classes of the cipher — `InvalidKeyError`
(malformed key material, raised at construction) and the authentication
failure `InvalidToken` (the spec's `AuthenticationError`). -/
inductive CipherError
  | invalidKey
  | invalidToken
deriving DecidableEq

/-- Modelled from the spec: `Fernet(key)` construction.  The key length is a
fixed constant of the system (32 raw bytes); a key of wrong length fails
with `InvalidKeyError` at construction, before any use. -/
def mkFernet (key : List Nat) : Except CipherError (List Nat) :=
  if key.length = 32 then .ok key else .error .invalidKey

/-- Modelled from the spec: the authenticated material of a token — header,
timestamp, nonce and ciphertext (everything but the tag). -/
def tokenBody (t : FernetToken) : List Nat :=
  t.version :: t.timestamp :: (t.iv ++ t.ciphertext)

/-- Modelled from the spec: `Fernet.encrypt` on a constructed cipher.  The
timestamp and the fresh nonce of this particular call are explicit inputs;
the token carries the fixed version header 128 (0x80). -/
def fernetEncrypt (rawKey : List Nat) (ts : Nat) (iv p : List Nat) : FernetToken :=
  { version := 128, timestamp := ts, iv := iv, ciphertext := encBody rawKey iv p,
    tag := macTag rawKey (128 :: ts :: (iv ++ encBody rawKey iv p)) }

/-- Modelled from the spec: `Fernet.decrypt` on a constructed cipher.  The
version header and the integrity tag are verified before any plaintext is
produced; on mismatch the result is the authentication error and no partial
data. -/
def fernetDecrypt (rawKey : List Nat) (t : FernetToken) : Except CipherError (List Nat) :=
  if t.version = 128 ∧ t.tag = macTag rawKey (tokenBody t) then
    .ok (encBody rawKey t.iv t.ciphertext)
  else .error .invalidToken

/-- Provenance of the symmetric key consumed by a module: a compiled-in
literal, or one of the external configuration sources the spec names. -/
inductive KeySource
  | hardcodedLiteral (bytes : List Nat)
  | envVar (name : String)
  | cliArg
  | secretManager
deriving DecidableEq

/-- Whether a key source is a compiled-in literal. -/
def KeySource.isHardcoded : KeySource → Bool
  | .hardcodedLiteral _ => true
  | _ => false

/-- File-system operations performed by the encryptor, recorded as a trace:
reading the source file, writing an artifact to a path, renaming a path. -/
inductive FileOp
  | readOp (path : String)
  | writeOp (path : String) (artifact : FernetToken)
  | renameOp (src dst : String)
deriving DecidableEq

/-- Whether a file operation is a rename. -/
def FileOp.isRename : FileOp → Bool
  | .renameOp _ _ => true
  | _ => false

namespace CompiledEncryptor

/-- The class attribute `ENCRYPTION_KEY` of `encrypt_compiled.py`: the
hard-coded key literal, embedded as its byte values. -/
def ENCRYPTION_KEY : List Nat :=
  "2A4cD5H-9n-y2SrQRT3UZ9cPaZFo5a0iAdRQeT7ZnUw=".data.map Char.toNat

/-- Where `encrypt_compiled.py` obtains its key: the literal class attribute. -/
def keySource : KeySource := KeySource.hardcodedLiteral ENCRYPTION_KEY

/-- `CompiledEncryptor.encrypt_file` of `encrypt_compiled.py`.  The bytes of
the source file are the explicit input `data`; the timestamp and nonce of
the underlying Fernet call are explicit inputs.  The default output path is
`file_path + ".encrypted"`.  The result records the trace of file
operations performed (one read of the source, one direct write of the
artifact to the output path), the output path, and the artifact written. -/
def encrypt_file (rawKey : List Nat) (ts : Nat) (iv : List Nat)
    (filePath : String) (outputPath : Option String) (data : List Nat) :
    Except CipherError (List FileOp × String × FernetToken) :=
  let outPath := outputPath.getD (filePath ++ ".encrypted")
  match mkFernet rawKey with
  | .error e => .error e
  | .ok k =>
      let tok := fernetEncrypt k ts iv data
      .ok ([FileOp.readOp filePath, FileOp.writeOp outPath tok], outPath, tok)

end CompiledEncryptor

namespace CythonRuntimeLoader

/-- The class attribute `DECRYPTION_KEY` of `runtime_loader.py`: the
hard-coded key literal, embedded as its byte values. -/
def DECRYPTION_KEY : List Nat :=
  "2A4cD5H-9n-y2SrQRT3UZ9cPaZFo5a0iAdRQeT7ZnUw=".data.map Char.toNat

/-- Where `runtime_loader.py` obtains its key: the literal class attribute. -/
def keySource : KeySource := KeySource.hardcodedLiteral DECRYPTION_KEY

/-- The Python exception escaping `_decrypt_file`. -/
inductive PyError
  | valueError (msg : String)
deriving DecidableEq

/-- `CythonRuntimeLoader._decrypt_file` of `runtime_loader.py`: construct
the cipher (outside the try-block, so a key error propagates unwrapped),
then decrypt; any decryption failure is re-raised as
`ValueError("Failed to decrypt file. Invalid encryption key.")`. -/
def decrypt_file (rawKey : List Nat) (tok : FernetToken) : Except PyError (List Nat) :=
  match mkFernet rawKey with
  | .error _ => .error (.valueError "Fernet key must be 32 url-safe base64-encoded bytes.")
  | .ok k =>
      match fernetDecrypt k tok with
      | .ok d => .ok d
      | .error _ => .error (.valueError "Failed to decrypt file. Invalid encryption key.")

/-- `os.path.basename`: the part of the path after the last separator. -/
def strBasename (cs : List Char) : List Char :=
  cs.foldl (fun acc c => if c = '/' then [] else acc ++ [c]) []

/-- Index of the last dot of a file name, if any (used by `splitext`). -/
def lastDot (cs : List Char) : Option Nat :=
  (List.range cs.length).foldl (fun acc i => if cs.getD i ' ' = '.' then some i else acc) none

/-- Root part of `os.path.splitext` on a basename: cut at the last dot,
except when every character before that dot is itself a dot (a leading-dot
file name has no extension). -/
def splitextRoot (cs : List Char) : List Char :=
  match lastDot cs with
  | none => cs
  | some d => if (cs.take d).any (fun c => c != '.') then cs.take d else cs

/-- The `.encrypted`-suffix strip of `CythonRuntimeLoader.__init__`: when
the name ends with `.encrypted`, the last ten characters are removed. -/
def stripEncrypted (cs : List Char) : List Char :=
  if 10 ≤ cs.length ∧ cs.drop (cs.length - 10) = ".encrypted".data then
    cs.take (cs.length - 10)
  else cs

/-- `CythonRuntimeLoader.__init__`'s computation of `self.module_name`:
the given name if one is passed (Python's `or` falls through on the empty
string), else the basename of the artifact path with its extension
stripped; in either case a trailing `.encrypted` suffix is then removed. -/
def init_module_name (encryptedFilePath : String) (given : Option String) : String :=
  let derived : List Char := splitextRoot (strBasename encryptedFilePath.data)
  let base : List Char :=
    match given with
    | some s => if s = "" then derived else s.data
    | none => derived
  String.mk (stripEncrypted base)

/-- Outcomes of the OS-dependent steps inside `load_and_run`: whether the
staging write, the `spec_from_file_location` lookup and each of the two
`exec_module` calls succeed, and whether the best-effort cleanup
`os.unlink` of the staging file succeeds (the source wraps it in
`try: ... except: pass` because it can fail, e.g. unlinking the
currently-loaded extension on win32). -/
structure LoaderEnv where
  stageOk : Bool
  specOk : Bool
  exec1Ok : Bool
  exec2Ok : Bool
  unlinkOk : Bool
deriving DecidableEq

/-- Observable state threaded through `load_and_run`: the `sys.modules`
table (newest binding first, as Python dict assignment shadows the old
one), the number of `exec_module` invocations of the payload, and the fate
of the staging file (created / still on disk / cleanup attempted). -/
structure RunState where
  sysModules : List (String × Nat)
  execCount : Nat
  tempCreated : Bool
  tempExists : Bool
  cleanupAttempted : Bool
deriving DecidableEq

/-- Result of `load_and_run`: the loaded module is returned, or the
process exits via `sys.exit(code)` from the outer exception handler. -/
inductive RunResult
  | ok (m : Nat)
  | sysExit (code : Nat)
deriving DecidableEq

/-- `CythonRuntimeLoader.load_and_run` of `runtime_loader.py`.  Control flow
translated from the source: decrypt (failure exits 1 with nothing staged);
create the staging temp file and write the plaintext (a write failure
escapes the `with` block before the guarded region, leaving the
`delete=False` temp file behind with no cleanup attempt); inside the inner
`try`, build the spec (a `None` spec raises `ImportError`), register the
module in `sys.modules`, execute the module, then re-execute it with
`__name__` set to `"__main__"`; the inner `finally` attempts to unlink the
temp file on every path through it, but the unlink is best-effort — its
failure is swallowed by `except: pass`, so a failed unlink leaves the file
on disk (`tempExists` stays true) and never changes the run's outcome; any
exception reaches the outer handler which calls `sys.exit(1)`. -/
def load_and_run (rawKey : List Nat) (tok : FernetToken) (env : LoaderEnv)
    (moduleName : String) (freshMod : Nat) (s : RunState) : RunState × RunResult :=
  match decrypt_file rawKey tok with
  | .error _ => (s, .sysExit 1)
  | .ok _ =>
      let s1 : RunState := { s with tempCreated := true, tempExists := true }
      if env.stageOk then
        if env.specOk then
          let s2 : RunState := { s1 with sysModules := (moduleName, freshMod) :: s1.sysModules }
          let s3 : RunState := { s2 with execCount := s2.execCount + 1 }
          if env.exec1Ok then
            let s4 : RunState := { s3 with execCount := s3.execCount + 1 }
            if env.exec2Ok then
              ({ s4 with cleanupAttempted := true, tempExists := !env.unlinkOk }, .ok freshMod)
            else
              ({ s4 with cleanupAttempted := true, tempExists := !env.unlinkOk }, .sysExit 1)
          else
            ({ s3 with cleanupAttempted := true, tempExists := !env.unlinkOk }, .sysExit 1)
        else
          ({ s1 with cleanupAttempted := true, tempExists := !env.unlinkOk }, .sysExit 1)
      else
        (s1, .sysExit 1)

end CythonRuntimeLoader

namespace app_launcher

/-- The constant artifact name of `app_launcher.py`. -/
def ENCRYPTED_APP_NAME : String := "app.encrypted"

/-- `app_launcher.main`: exit 1 when the artifact file is missing, else run
the loader (which itself exits 1 on any failure); a normal return ends the
process with exit code 0.  The function yields the process exit code. -/
def main (fileExists : Bool) (rawKey : List Nat) (tok : FernetToken)
    (env : CythonRuntimeLoader.LoaderEnv) (freshMod : Nat)
    (s : CythonRuntimeLoader.RunState) : Nat :=
  if fileExists then
    match (CythonRuntimeLoader.load_and_run rawKey tok env
        (CythonRuntimeLoader.init_module_name ENCRYPTED_APP_NAME none) freshMod s).2 with
    | .ok _ => 0
    | .sysExit c => c
  else 1

end app_launcher

/-- A concrete valid raw key (32 bytes), for witnesses. -/
def k32 : List Nat := List.replicate 32 5

/-- A concrete nonce, for witnesses. -/
def iv16 : List Nat := List.replicate 16 9

/-- A concrete artifact: the payload `[10, 20, 30]` encrypted under `k32`. -/
def tok0 : FernetToken := fernetEncrypt k32 7 iv16 [10, 20, 30]

/-- A corrupted artifact: `tok0` with its tag destroyed. -/
def tokBad : FernetToken := { tok0 with tag := [] }

/-- Loader environment in which every OS step succeeds. -/
def envAll : CythonRuntimeLoader.LoaderEnv :=
  { stageOk := true, specOk := true, exec1Ok := true, exec2Ok := true, unlinkOk := true }

/-- Loader environment in which the staging write fails. -/
def envStageFail : CythonRuntimeLoader.LoaderEnv :=
  { stageOk := false, specOk := true, exec1Ok := true, exec2Ok := true, unlinkOk := true }

/-- Loader environment in which everything succeeds except the best-effort
cleanup unlink of the staging file. -/
def envUnlinkFail : CythonRuntimeLoader.LoaderEnv :=
  { stageOk := true, specOk := true, exec1Ok := true, exec2Ok := true, unlinkOk := false }

/-- Loader state at process start: empty module table, nothing staged. -/
def initState : CythonRuntimeLoader.RunState :=
  { sysModules := [], execCount := 0, tempCreated := false, tempExists := false,
    cleanupAttempted := false }

/-! Helper lemmas about the cipher model. -/

theorem getD_cons_zero' (a d : Nat) (l : List Nat) : (a :: l).getD 0 d = a := rfl

theorem getD_cons_succ' (a d n : Nat) (l : List Nat) : (a :: l).getD (n + 1) d = l.getD n d := rfl

theorem set_cons_zero' (a b : Nat) (l : List Nat) : (a :: l).set 0 b = b :: l := rfl

theorem set_cons_succ' (a b n : Nat) (l : List Nat) : (a :: l).set (n + 1) b = a :: l.set n b := rfl

theorem keystream_length (key iv : List Nat) (n : Nat) : (keystream key iv n).length = n := by
  simp [keystream]

theorem zipWith_xor_cancel (s : List Nat) : ∀ p : List Nat, p.length ≤ s.length →
    List.zipWith (fun a b => a ^^^ b) s (List.zipWith (fun a b => a ^^^ b) s p) = p := by
  induction s with
  | nil =>
      intro p hp
      cases p with
      | nil => rfl
      | cons b t => simp at hp
  | cons a s ih =>
      intro p hp
      cases p with
      | nil => rfl
      | cons b t =>
          simp only [List.zipWith]
          rw [ih t (by simpa using hp)]
          rw [← Nat.xor_assoc, Nat.xor_self, Nat.zero_xor]

theorem encBody_length (key iv p : List Nat) : (encBody key iv p).length = p.length := by
  simp [encBody, keystream_length]

theorem encBody_encBody (key iv p : List Nat) : encBody key iv (encBody key iv p) = p := by
  show List.zipWith (fun a b => a ^^^ b)
      (keystream key iv (encBody key iv p).length) (encBody key iv p) = p
  rw [encBody_length]
  exact zipWith_xor_cancel _ _ (Nat.le_of_eq (keystream_length key iv p.length).symm)

theorem dup_inj : ∀ a b : List Nat, dup a = dup b → a = b := by
  intro a
  induction a with
  | nil =>
      intro b h
      cases b with
      | nil => rfl
      | cons y u => simp [dup] at h
  | cons x t ih =>
      intro b h
      cases b with
      | nil => simp [dup] at h
      | cons y u =>
          simp only [dup, List.cons.injEq] at h
          obtain ⟨h1, -, h3⟩ := h
          rw [h1, ih u h3]

theorem getD_set_self : ∀ (l : List Nat) (i v : Nat), i < l.length → (l.set i v).getD i 0 = v := by
  intro l
  induction l with
  | nil =>
      intro i v hi
      simp at hi
  | cons a t ih =>
      intro i v hi
      cases i with
      | zero => rfl
      | succ n => exact ih n v (by simpa using hi)

theorem set_dup_ne : ∀ (l : List Nat) (j v : Nat), j < (dup l).length → v ≠ (dup l).getD j 0 →
    ∀ m : List Nat, (dup l).set j v ≠ dup m := by
  intro l
  induction l with
  | nil =>
      intro j v hj hv m
      simp [dup] at hj
  | cons a t ih =>
      intro j v hj hv m hEq
      cases m with
      | nil =>
          have hlen := congrArg List.length hEq
          simp [dup, List.length_set] at hlen
      | cons b u =>
          cases j with
          | zero =>
              rw [show dup (a :: t) = a :: a :: dup t from rfl, set_cons_zero'] at hEq
              rw [show dup (b :: u) = b :: b :: dup u from rfl] at hEq
              injection hEq with h1 hEq2
              injection hEq2 with h2 hEq3
              exact hv (h1.trans h2.symm)
          | succ j1 =>
              cases j1 with
              | zero =>
                  rw [show dup (a :: t) = a :: a :: dup t from rfl, set_cons_succ',
                    set_cons_zero'] at hEq
                  rw [show dup (b :: u) = b :: b :: dup u from rfl] at hEq
                  injection hEq with h1 hEq2
                  injection hEq2 with h2 hEq3
                  exact hv (h2.trans h1.symm)
              | succ k =>
                  rw [show dup (a :: t) = a :: a :: dup t from rfl, set_cons_succ',
                    set_cons_succ'] at hEq
                  rw [show dup (b :: u) = b :: b :: dup u from rfl] at hEq
                  injection hEq with h1 hEq2
                  injection hEq2 with h2 hEq3
                  have hlen : (dup (a :: t)).length = (dup t).length + 2 := rfl
                  rw [hlen] at hj
                  exact ih k v (by omega) hv u hEq3

theorem tag_check_fails_ct (rawKey key2 : List Nat) (h32 : rawKey.length = 32)
    (hk2 : key2.length = 32) (ts : Nat) (iv ct : List Nat) (i v : Nat)
    (hi : i < ct.length) (hv : v ≠ ct.getD i 0) :
    macTag rawKey (128 :: ts :: (iv ++ ct)) ≠ macTag key2 (128 :: ts :: (iv ++ ct.set i v)) := by
  intro h
  simp only [macTag] at h
  have h2 := dup_inj _ _ h
  obtain ⟨-, h4⟩ := List.append_inj h2 (h32.trans hk2.symm)
  injection h4 with h4a h4b
  injection h4b with h4c h4d
  have h6 : ct = ct.set i v := by
    have := List.append_inj h4d (rfl : iv.length = iv.length)
    exact this.2
  have h7 := congrArg (fun l => l.getD i 0) h6
  simp only at h7
  rw [getD_set_self ct i v hi] at h7
  exact hv h7.symm

theorem tag_check_fails_tag (rawKey key2 : List Nat) (ts : Nat) (iv ct : List Nat) (j v : Nat)
    (hj : j < (macTag rawKey (128 :: ts :: (iv ++ ct))).length)
    (hv : v ≠ (macTag rawKey (128 :: ts :: (iv ++ ct))).getD j 0) :
    (macTag rawKey (128 :: ts :: (iv ++ ct))).set j v ≠ macTag key2 (128 :: ts :: (iv ++ ct)) := by
  simp only [macTag] at hj hv ⊢
  exact set_dup_ne (rawKey ++ (128 :: ts :: (iv ++ ct))) j v hj hv
    (key2 ++ (128 :: ts :: (iv ++ ct)))

theorem fernetDecrypt_error_of_tag (key2 : List Nat) (t : FernetToken)
    (h : t.tag ≠ macTag key2 (tokenBody t)) :
    fernetDecrypt key2 t = Except.error CipherError.invalidToken := by
  have hc : ¬(t.version = 128 ∧ t.tag = macTag key2 (tokenBody t)) := fun hand => h hand.2
  unfold fernetDecrypt
  rw [if_neg hc]

theorem fernetDecrypt_fernetEncrypt (rawKey : List Nat) (ts : Nat) (iv p : List Nat) :
    fernetDecrypt rawKey (fernetEncrypt rawKey ts iv p) = Except.ok p := by
  unfold fernetDecrypt
  rw [if_pos ⟨rfl, rfl⟩]
  exact congrArg Except.ok (encBody_encBody rawKey iv p)

theorem decrypt_file_fernetEncrypt (rawKey : List Nat) (hK : rawKey.length = 32)
    (ts : Nat) (iv p : List Nat) :
    CythonRuntimeLoader.decrypt_file rawKey (fernetEncrypt rawKey ts iv p) = Except.ok p := by
  unfold CythonRuntimeLoader.decrypt_file mkFernet
  rw [if_pos hK]
  simp [fernetDecrypt_fernetEncrypt]

/-! Claim theorems. -/

/-- C1: for every binary payload and every valid key, decrypting the
artifact produced by `CompiledEncryptor.encrypt_file` with
`CythonRuntimeLoader._decrypt_file` under the same key yields exactly the
original bytes. -/
theorem C1_round_trip (rawKey p : List Nat) (hK : rawKey.length = 32) (ts : Nat)
    (iv : List Nat) (filePath : String) (outputPath : Option String) :
    (∃ ops outPath, CompiledEncryptor.encrypt_file rawKey ts iv filePath outputPath p =
      Except.ok (ops, outPath, fernetEncrypt rawKey ts iv p)) ∧
    CythonRuntimeLoader.decrypt_file rawKey (fernetEncrypt rawKey ts iv p) = Except.ok p := by
  constructor
  · refine ⟨[FileOp.readOp filePath,
      FileOp.writeOp (outputPath.getD (filePath ++ ".encrypted")) (fernetEncrypt rawKey ts iv p)],
      outputPath.getD (filePath ++ ".encrypted"), ?_⟩
    unfold CompiledEncryptor.encrypt_file mkFernet
    rw [if_pos hK]
  · exact decrypt_file_fernetEncrypt rawKey hK ts iv p

/-- Witness for C1 at a concrete key and payload. -/
theorem C1_round_trip_witness :
    CythonRuntimeLoader.decrypt_file k32 (fernetEncrypt k32 7 iv16 [10, 20, 30]) =
      Except.ok [10, 20, 30] := by
  exact (C1_round_trip k32 [10, 20, 30] (by decide) 7 iv16 "app.so" none).2

/-- C6: two encryptions of the same payload under the same key with fresh
(distinct) nonce components produce non-identical artifacts, and each of the
two artifacts still decrypts back to the payload under that key. -/
theorem C6_nonce_freshness (rawKey p : List Nat) (hK : rawKey.length = 32)
    (ts1 ts2 : Nat) (iv1 iv2 : List Nat) (hiv : iv1 ≠ iv2) :
    fernetEncrypt rawKey ts1 iv1 p ≠ fernetEncrypt rawKey ts2 iv2 p ∧
    CythonRuntimeLoader.decrypt_file rawKey (fernetEncrypt rawKey ts1 iv1 p) = Except.ok p ∧
    CythonRuntimeLoader.decrypt_file rawKey (fernetEncrypt rawKey ts2 iv2 p) = Except.ok p := by
  refine ⟨?_, decrypt_file_fernetEncrypt rawKey hK ts1 iv1 p,
    decrypt_file_fernetEncrypt rawKey hK ts2 iv2 p⟩
  intro h
  exact hiv (congrArg FernetToken.iv h)

/-- Witness for C6 at concrete distinct nonces. -/
theorem C6_nonce_freshness_witness :
    fernetEncrypt k32 0 iv16 [1] ≠ fernetEncrypt k32 0 (List.replicate 16 3) [1] ∧
    CythonRuntimeLoader.decrypt_file k32 (fernetEncrypt k32 0 iv16 [1]) = Except.ok [1] ∧
    CythonRuntimeLoader.decrypt_file k32 (fernetEncrypt k32 0 (List.replicate 16 3) [1]) =
      Except.ok [1] := by
  exact C6_nonce_freshness k32 [1] (by decide) 0 0 iv16 (List.replicate 16 3) (by decide)

/-- C9: a key of the wrong length fails with the `InvalidKeyError` when the
cipher object is constructed (`mkFernet`); the key error never arises later
at use time — decryption can only signal the authentication error, and
encryption on a constructed cipher is total. -/
theorem C9_invalid_key_at_construction (key : List Nat) (h : key.length ≠ 32) :
    mkFernet key = Except.error CipherError.invalidKey ∧
    (∀ k t, fernetDecrypt k t ≠ Except.error CipherError.invalidKey) := by
  constructor
  · unfold mkFernet
    rw [if_neg h]
  · intro k t hcontra
    unfold fernetDecrypt at hcontra
    split at hcontra <;> simp_all

/-- Witness for C9 at a concrete three-byte key. -/
theorem C9_invalid_key_at_construction_witness :
    mkFernet [1, 2, 3] = Except.error CipherError.invalidKey ∧
    fernetDecrypt [1, 2, 3] tok0 ≠ Except.error CipherError.invalidKey := by
  exact ⟨(C9_invalid_key_at_construction [1, 2, 3] (by decide)).1,
    (C9_invalid_key_at_construction [1, 2, 3] (by decide)).2 [1, 2, 3] tok0⟩

/-- C4: for every artifact produced by encryption under a valid key, every
single-byte modification of its ciphertext or of its tag makes decryption
fail for every key — the authentication error `invalidToken` under every
valid key (including the producing key), and never a successful result
under any key — so no partial plaintext is ever returned. -/
theorem C4_tamper_detection (rawKey p : List Nat) (hK : rawKey.length = 32)
    (ts : Nat) (iv : List Nat) (t' : FernetToken)
    (h :
      (∃ i v, i < (fernetEncrypt rawKey ts iv p).ciphertext.length ∧
        v ≠ (fernetEncrypt rawKey ts iv p).ciphertext.getD i 0 ∧
        t' = { fernetEncrypt rawKey ts iv p with
               ciphertext := (fernetEncrypt rawKey ts iv p).ciphertext.set i v }) ∨
      (∃ j v, j < (fernetEncrypt rawKey ts iv p).tag.length ∧
        v ≠ (fernetEncrypt rawKey ts iv p).tag.getD j 0 ∧
        t' = { fernetEncrypt rawKey ts iv p with
               tag := (fernetEncrypt rawKey ts iv p).tag.set j v })) :
    (∀ key2, key2.length = 32 → fernetDecrypt key2 t' = Except.error CipherError.invalidToken) ∧
    (∀ key2 d, CythonRuntimeLoader.decrypt_file key2 t' ≠ Except.ok d) := by
  have hMain : ∀ key2, key2.length = 32 →
      fernetDecrypt key2 t' = Except.error CipherError.invalidToken := by
    intro key2 hk2
    rcases h with ⟨i, v, hi, hv, ht⟩ | ⟨j, v, hj, hv, ht⟩
    · subst ht
      apply fernetDecrypt_error_of_tag
      show macTag rawKey (128 :: ts :: (iv ++ encBody rawKey iv p)) ≠
        macTag key2 (128 :: ts :: (iv ++ (encBody rawKey iv p).set i v))
      exact tag_check_fails_ct rawKey key2 hK hk2 ts iv (encBody rawKey iv p) i v hi hv
    · subst ht
      apply fernetDecrypt_error_of_tag
      show (macTag rawKey (128 :: ts :: (iv ++ encBody rawKey iv p))).set j v ≠
        macTag key2 (128 :: ts :: (iv ++ encBody rawKey iv p))
      exact tag_check_fails_tag rawKey key2 ts iv (encBody rawKey iv p) j v hj hv
  refine ⟨hMain, ?_⟩
  intro key2 d hcontra
  by_cases hlen : key2.length = 32
  · have hmk : mkFernet key2 = Except.ok key2 := by
      unfold mkFernet
      rw [if_pos hlen]
    simp only [CythonRuntimeLoader.decrypt_file, hmk, hMain key2 hlen] at hcontra
    exact Except.noConfusion hcontra
  · have hmk : mkFernet key2 = Except.error CipherError.invalidKey := by
      unfold mkFernet
      rw [if_neg hlen]
    simp only [CythonRuntimeLoader.decrypt_file, hmk] at hcontra
    exact Except.noConfusion hcontra

/-- Witness for C4: a concrete one-byte corruption of the first ciphertext
byte of a concrete artifact is rejected. -/
theorem C4_tamper_detection_witness :
    fernetDecrypt k32
      { fernetEncrypt k32 7 iv16 [10, 20, 30] with
        ciphertext := (fernetEncrypt k32 7 iv16 [10, 20, 30]).ciphertext.set 0
          ((fernetEncrypt k32 7 iv16 [10, 20, 30]).ciphertext.getD 0 0 + 1) } =
      Except.error CipherError.invalidToken ∧
    CythonRuntimeLoader.decrypt_file k32
      { fernetEncrypt k32 7 iv16 [10, 20, 30] with
        ciphertext := (fernetEncrypt k32 7 iv16 [10, 20, 30]).ciphertext.set 0
          ((fernetEncrypt k32 7 iv16 [10, 20, 30]).ciphertext.getD 0 0 + 1) } ≠
      Except.ok [10, 20, 30] := by
  have h := C4_tamper_detection k32 [10, 20, 30] (by decide) 7 iv16
    { fernetEncrypt k32 7 iv16 [10, 20, 30] with
      ciphertext := (fernetEncrypt k32 7 iv16 [10, 20, 30]).ciphertext.set 0
        ((fernetEncrypt k32 7 iv16 [10, 20, 30]).ciphertext.getD 0 0 + 1) }
    (Or.inl ⟨0, (fernetEncrypt k32 7 iv16 [10, 20, 30]).ciphertext.getD 0 0 + 1,
      by decide, by decide, rfl⟩)
  exact ⟨h.1 k32 (by decide), h.2 k32 [10, 20, 30]⟩

/-- C2 counterexample: a fully successful concrete run returns the loaded
module and has invoked the payload's `exec_module` entry twice, not once —
the loader re-executes the module with `__name__` set to `"__main__"`. -/
theorem C2_counterexample :
    (CythonRuntimeLoader.load_and_run k32 tok0 envAll "app" 0 initState).2 =
      CythonRuntimeLoader.RunResult.ok 0 ∧
    (CythonRuntimeLoader.load_and_run k32 tok0 envAll "app" 0 initState).1.execCount = 2 ∧
    (2 : Nat) ≠ 1 := by
  refine ⟨by decide, by decide, by decide⟩

/-- C2 (amended): on every run in which `load_and_run` returns the loaded
module, the payload's entry point has been invoked exactly twice — once by
the initial `exec_module` and once by the deliberate re-execution with
`__name__ = "__main__"` — never zero times and never exactly once. -/
theorem C2_entry_point_invoked_twice (rawKey : List Nat) (tok : FernetToken)
    (env : CythonRuntimeLoader.LoaderEnv) (name : String) (fm : Nat)
    (s s' : CythonRuntimeLoader.RunState) (m : Nat)
    (h : CythonRuntimeLoader.load_and_run rawKey tok env name fm s =
      (s', CythonRuntimeLoader.RunResult.ok m)) :
    s'.execCount = s.execCount + 2 := by
  obtain ⟨st, sp, e1, e2, ul⟩ := env
  cases hdec : CythonRuntimeLoader.decrypt_file rawKey tok with
  | error e => simp [CythonRuntimeLoader.load_and_run, hdec] at h
  | ok d =>
      cases st <;> cases sp <;> cases e1 <;> cases e2 <;>
        simp_all [CythonRuntimeLoader.load_and_run]
      obtain ⟨h1, -⟩ := h
      subst h1
      rfl

/-- Witness for C2 (amended) at a concrete successful run. -/
theorem C2_entry_point_invoked_twice_witness :
    (CythonRuntimeLoader.load_and_run k32 tok0 envAll "app" 0 initState).1.execCount =
      initState.execCount + 2 := by
  exact C2_entry_point_invoked_twice k32 tok0 envAll "app" 0 initState
    (CythonRuntimeLoader.load_and_run k32 tok0 envAll "app" 0 initState).1 0 (by decide)

/-- C3 counterexample: at a concrete input whose artifact is present but
fails authentication, the process exits with code 1, not with the distinct
code 2 the claim assigns to decryption failures. -/
theorem C3_counterexample :
    app_launcher.main true k32 tokBad envAll 0 initState = 1 ∧ (1 : Nat) ≠ 2 := by
  refine ⟨by decide, by decide⟩

/-- C3 (amended): the run command exits 0 on success and 1 on every failure
— a missing artifact file, a decryption/authentication failure, and a
load or invoke failure all exit with the same code 1; distinct failure
classes are not distinguished by the exit code. -/
theorem C3_exit_codes (rawKey : List Nat) (tok : FernetToken)
    (env : CythonRuntimeLoader.LoaderEnv) (fm : Nat) (s : CythonRuntimeLoader.RunState) :
    app_launcher.main false rawKey tok env fm s = 1 ∧
    (∀ e, CythonRuntimeLoader.decrypt_file rawKey tok = Except.error e →
      app_launcher.main true rawKey tok env fm s = 1) ∧
    (∀ d, CythonRuntimeLoader.decrypt_file rawKey tok = Except.ok d →
      (env.stageOk = false ∨ env.specOk = false ∨ env.exec1Ok = false ∨ env.exec2Ok = false) →
      app_launcher.main true rawKey tok env fm s = 1) ∧
    (∀ d, CythonRuntimeLoader.decrypt_file rawKey tok = Except.ok d →
      env.stageOk = true → env.specOk = true → env.exec1Ok = true → env.exec2Ok = true →
      app_launcher.main true rawKey tok env fm s = 0) := by
  obtain ⟨st, sp, e1, e2, ul⟩ := env
  refine ⟨rfl, ?_, ?_, ?_⟩
  · intro e he
    simp [app_launcher.main, CythonRuntimeLoader.load_and_run, he]
  · intro d hd hcase
    cases st <;> cases sp <;> cases e1 <;> cases e2 <;>
      simp_all [app_launcher.main, CythonRuntimeLoader.load_and_run]
  · intro d hd hst hsp he1 he2
    simp_all [app_launcher.main, CythonRuntimeLoader.load_and_run]

/-- Witness for C3 (amended): a missing file exits 1 and a fully successful
run exits 0, at concrete inputs. -/
theorem C3_exit_codes_witness :
    app_launcher.main false k32 tok0 envAll 0 initState = 1 ∧
    app_launcher.main true k32 tok0 envAll 0 initState = 0 := by
  refine ⟨(C3_exit_codes k32 tok0 envAll 0 initState).1, ?_⟩
  exact (C3_exit_codes k32 tok0 envAll 0 initState).2.2.2 [10, 20, 30] rfl
    rfl rfl rfl rfl

/-- C5 counterexample: at a concrete input, `encrypt_file`'s trace is one
read of the source followed by one write directly to the final output path;
it contains no rename operation at all, so the artifact is not written to a
temporary path first — an interrupted write happens at the final path. -/
theorem C5_counterexample :
    CompiledEncryptor.encrypt_file k32 0 iv16 "app.so" none [1, 2, 3] =
      Except.ok ([FileOp.readOp "app.so",
                  FileOp.writeOp "app.so.encrypted" (fernetEncrypt k32 0 iv16 [1, 2, 3])],
                 "app.so.encrypted", fernetEncrypt k32 0 iv16 [1, 2, 3]) ∧
    List.filter FileOp.isRename
      [FileOp.readOp "app.so",
       FileOp.writeOp "app.so.encrypted" (fernetEncrypt k32 0 iv16 [1, 2, 3])] = [] ∧
    FileOp.writeOp "app.so.encrypted" (fernetEncrypt k32 0 iv16 [1, 2, 3]) ∈
      [FileOp.readOp "app.so",
       FileOp.writeOp "app.so.encrypted" (fernetEncrypt k32 0 iv16 [1, 2, 3])] := by
  refine ⟨rfl, by decide, by decide⟩

/-- C5 (amended): `encrypt_file` writes the encrypted artifact directly to
the final output path in a single write, with no temporary path and no
rename; the trace of file operations is exactly one read of the source
followed by one write to the output path. -/
theorem C5_direct_write (rawKey : List Nat) (hK : rawKey.length = 32) (ts : Nat)
    (iv p : List Nat) (filePath : String) (outputPath : Option String) :
    CompiledEncryptor.encrypt_file rawKey ts iv filePath outputPath p =
      Except.ok ([FileOp.readOp filePath,
                  FileOp.writeOp (outputPath.getD (filePath ++ ".encrypted"))
                    (fernetEncrypt rawKey ts iv p)],
                 outputPath.getD (filePath ++ ".encrypted"), fernetEncrypt rawKey ts iv p) := by
  unfold CompiledEncryptor.encrypt_file mkFernet
  rw [if_pos hK]

/-- Witness for C5 (amended) at a concrete input. -/
theorem C5_direct_write_witness :
    CompiledEncryptor.encrypt_file k32 0 iv16 "demo.so" none [4, 5] =
      Except.ok ([FileOp.readOp "demo.so",
                  FileOp.writeOp "demo.so.encrypted" (fernetEncrypt k32 0 iv16 [4, 5])],
                 "demo.so.encrypted", fernetEncrypt k32 0 iv16 [4, 5]) := by
  exact C5_direct_write k32 (by decide) 0 iv16 [4, 5] "demo.so" none

/-- C7 counterexample: the symmetric key of both the encryptor and the
loader is a compiled-in literal, not injected external configuration. -/
theorem C7_counterexample :
    CompiledEncryptor.keySource.isHardcoded = true ∧
    CythonRuntimeLoader.keySource.isHardcoded = true := by
  refine ⟨rfl, rfl⟩

/-- C7 (amended): both shipped modules embed the key as a hard-coded
class-attribute literal, and it is the same literal in both — the key is a
compiled-in secret, not external configuration. -/
theorem C7_hardcoded_key :
    CompiledEncryptor.keySource = KeySource.hardcodedLiteral CompiledEncryptor.ENCRYPTION_KEY ∧
    CythonRuntimeLoader.keySource = KeySource.hardcodedLiteral CythonRuntimeLoader.DECRYPTION_KEY ∧
    CompiledEncryptor.ENCRYPTION_KEY = CythonRuntimeLoader.DECRYPTION_KEY := by
  refine ⟨rfl, rfl, by decide⟩

/-- C8 counterexample: at a concrete run whose staging write fails, the
temp file has been created, remains on the filesystem, and no cleanup was
attempted before the error propagated — the staging failure path leaks. -/
theorem C8_counterexample :
    (CythonRuntimeLoader.load_and_run k32 tok0 envStageFail "app" 0 initState).2 =
      CythonRuntimeLoader.RunResult.sysExit 1 ∧
    (CythonRuntimeLoader.load_and_run k32 tok0 envStageFail "app" 0 initState).1.tempCreated =
      true ∧
    (CythonRuntimeLoader.load_and_run k32 tok0 envStageFail "app" 0 initState).1.tempExists =
      true ∧
    (CythonRuntimeLoader.load_and_run k32 tok0 envStageFail "app" 0 initState).1.cleanupAttempted =
      false := by
  refine ⟨by decide, by decide, by decide, by decide⟩

/-- C8 (amended): after a successful run cleanup of the staging file has
been attempted, and the file no longer exists exactly when the best-effort
`os.unlink` succeeded (a failing unlink is swallowed by `except: pass` and
leaves the file behind even on success); after a failed decrypt no staging
file is ever created; the load and invoke failure paths likewise attempt
cleanup before the error propagates, removing the file exactly when the
unlink succeeds; but a failure of the staging write itself (after the
`delete=False` temp file is created, before the guarded region begins)
leaves the staged file behind with no cleanup attempt at all. -/
theorem C8_staging_cleanup (rawKey : List Nat) (tok : FernetToken)
    (env : CythonRuntimeLoader.LoaderEnv) (name : String) (fm : Nat)
    (s : CythonRuntimeLoader.RunState)
    (hc : s.tempCreated = false) (he : s.tempExists = false)
    (ha : s.cleanupAttempted = false) :
    (∀ s' m, CythonRuntimeLoader.load_and_run rawKey tok env name fm s =
        (s', CythonRuntimeLoader.RunResult.ok m) →
      s'.cleanupAttempted = true ∧ s'.tempExists = !env.unlinkOk) ∧
    (∀ e, CythonRuntimeLoader.decrypt_file rawKey tok = Except.error e →
      (CythonRuntimeLoader.load_and_run rawKey tok env name fm s).1.tempCreated = false ∧
      (CythonRuntimeLoader.load_and_run rawKey tok env name fm s).1.tempExists = false) ∧
    (∀ d, CythonRuntimeLoader.decrypt_file rawKey tok = Except.ok d → env.stageOk = true →
      (env.specOk = false ∨ env.exec1Ok = false ∨ env.exec2Ok = false) →
      (CythonRuntimeLoader.load_and_run rawKey tok env name fm s).1.cleanupAttempted = true ∧
      (CythonRuntimeLoader.load_and_run rawKey tok env name fm s).1.tempExists =
        !env.unlinkOk) ∧
    (∀ d, CythonRuntimeLoader.decrypt_file rawKey tok = Except.ok d → env.stageOk = false →
      (CythonRuntimeLoader.load_and_run rawKey tok env name fm s).1.tempCreated = true ∧
      (CythonRuntimeLoader.load_and_run rawKey tok env name fm s).1.tempExists = true ∧
      (CythonRuntimeLoader.load_and_run rawKey tok env name fm s).1.cleanupAttempted = false) := by
  obtain ⟨st, sp, e1, e2, ul⟩ := env
  refine ⟨?_, ?_, ?_, ?_⟩
  · intro s' m hrun
    cases hdec : CythonRuntimeLoader.decrypt_file rawKey tok with
    | error e => simp [CythonRuntimeLoader.load_and_run, hdec] at hrun
    | ok d =>
        cases st <;> cases sp <;> cases e1 <;> cases e2 <;>
          simp_all [CythonRuntimeLoader.load_and_run]
        obtain ⟨h1, -⟩ := hrun
        subst h1
        exact ⟨rfl, rfl⟩
  · intro e hde
    simp [CythonRuntimeLoader.load_and_run, hde, hc, he]
  · intro d hd hst hcase
    cases st <;> cases sp <;> cases e1 <;> cases e2 <;>
      simp_all [CythonRuntimeLoader.load_and_run]
  · intro d hd hst
    cases st <;> cases sp <;> cases e1 <;> cases e2 <;>
      simp_all [CythonRuntimeLoader.load_and_run]

/-- Witness for C8 (amended): the success conjunct at two concrete runs —
with the unlink succeeding the staging file is gone, with the unlink
failing the cleanup was still attempted but the file remains. -/
theorem C8_staging_cleanup_witness :
    ((CythonRuntimeLoader.load_and_run k32 tok0 envAll "app" 0 initState).1.cleanupAttempted =
        true ∧
      (CythonRuntimeLoader.load_and_run k32 tok0 envAll "app" 0 initState).1.tempExists =
        false) ∧
    ((CythonRuntimeLoader.load_and_run k32 tok0 envUnlinkFail "app" 0 initState).1.cleanupAttempted =
        true ∧
      (CythonRuntimeLoader.load_and_run k32 tok0 envUnlinkFail "app" 0 initState).1.tempExists =
        true) := by
  refine ⟨?_, ?_⟩
  · exact (C8_staging_cleanup k32 tok0 envAll "app" 0 initState rfl rfl rfl).1
      (CythonRuntimeLoader.load_and_run k32 tok0 envAll "app" 0 initState).1 0 (by decide)
  · exact (C8_staging_cleanup k32 tok0 envUnlinkFail "app" 0 initState rfl rfl rfl).1
      (CythonRuntimeLoader.load_and_run k32 tok0 envUnlinkFail "app" 0 initState).1 0 (by decide)

/-- C10: whenever decryption succeeds, staging succeeds and the module spec
is found, `load_and_run` registers the freshly created module in the
process-global `sys.modules` under the name derived by
`CythonRuntimeLoader.__init__` from the artifact path (basename, extension
stripped, trailing `.encrypted` suffix removed), as the newest binding —
shadowing any previously registered module of that name — and the binding
is still present in the state in which `load_and_run` returns. -/
theorem C10_sys_modules_registration (rawKey : List Nat) (tok : FernetToken) (d : List Nat)
    (hdec : CythonRuntimeLoader.decrypt_file rawKey tok = Except.ok d)
    (env : CythonRuntimeLoader.LoaderEnv) (hst : env.stageOk = true) (hsp : env.specOk = true)
    (path : String) (fm : Nat) (s : CythonRuntimeLoader.RunState) :
    (CythonRuntimeLoader.load_and_run rawKey tok env
        (CythonRuntimeLoader.init_module_name path none) fm s).1.sysModules =
      (CythonRuntimeLoader.init_module_name path none, fm) :: s.sysModules ∧
    ((CythonRuntimeLoader.load_and_run rawKey tok env
        (CythonRuntimeLoader.init_module_name path none) fm s).1.sysModules).lookup
      (CythonRuntimeLoader.init_module_name path none) = some fm := by
  obtain ⟨st, sp, e1, e2, ul⟩ := env
  cases e1 <;> cases e2 <;>
    simp_all [CythonRuntimeLoader.load_and_run, hdec, List.lookup]

/-- Witness for C10 at a concrete run: the artifact `dir/app.encrypted`
registers module name `app`, and the new binding shadows a pre-existing
`sys.modules` entry of the same name. -/
theorem C10_sys_modules_registration_witness :
    CythonRuntimeLoader.init_module_name "dir/app.encrypted" none = "app" ∧
    ((CythonRuntimeLoader.load_and_run k32 tok0 envAll
        (CythonRuntimeLoader.init_module_name "dir/app.encrypted" none) 0
        { sysModules := [("app", 99)], execCount := 0, tempCreated := false,
          tempExists := false, cleanupAttempted := false }).1.sysModules).lookup
      (CythonRuntimeLoader.init_module_name "dir/app.encrypted" none) = some 0 := by
  refine ⟨by decide, ?_⟩
  exact (C10_sys_modules_registration k32 tok0 [10, 20, 30] rfl envAll rfl rfl
    "dir/app.encrypted" 0
    { sysModules := [("app", 99)], execCount := 0, tempCreated := false,
      tempExists := false, cleanupAttempted := false }).2
